import Mathlib

/-
Verification of the ClusterSummary reconciliation engine
(controllers/clustersummary_controller.go and the scope package).

The Go data model and the operations under scrutiny are shallowly embedded
below.  Pure functions become Lean functions; the reconciler's two shared
maps become function-valued fields; fallible steps return Option/Except.
External collaborators (the Kubernetes client, the async deployer, the
random-string utility) are abstracted as explicit parameters.
-/

namespace Controllers

/-- Modelled from the spec: the `Set` type of the controllers package.  Its
implementation file is absent from the snapshot; only its unit tests
(set_test.go: insert/erase/has/items/difference) are present.  Spec section 3:
"Reference Entry ... Set membership only, no payload". -/
structure Set where
  data : Finset String
deriving DecidableEq

/-- Modelled from the spec: `Set.insert` adds an entry (set semantics, per
set_test.go "insert adds entry"). -/
def Set.insert (s : Set) (entry : String) : Set :=
  ⟨ Insert.insert entry s.data⟩

/-- Modelled from the spec: `Set.erase` removes an entry (set_test.go
"erase removes entry"). -/
def Set.erase (s : Set) (entry : String) : Set :=
  ⟨s.data.erase entry⟩

/-- Modelled from the spec: `Set.has` reports membership (set_test.go
"has returns true when entry is in set"). -/
def Set.has (s : Set) (entry : String) : Bool :=
  decide (entry ∈ s.data)

/-- Modelled from the spec: `Set.difference s o` returns the entries of `s`
not present in `o` (used by updatesMaps to compute the references no longer
consumed; order of the returned slice is irrelevant, so the model keeps a
finite set). -/
def Set.difference (s o : Set) : Finset String :=
  s.data \ o.data

/-- Kind of a referenced configuration object (the WorkloadRole / ConfigMap
constants passed to getEntryKey in getCurrentReferences). -/
inductive ReferenceKind where
  | WorkloadRole
  | ConfigMap
deriving DecidableEq

/-- Textual name of a reference kind, used to build entry keys. -/
def ReferenceKind.keyName : ReferenceKind → String
  | .WorkloadRole => "WorkloadRole"
  | .ConfigMap => "ConfigMap"

/-- Modelled from the spec: `getEntryKey` is absent from the snapshot; the
comment on ClusterSummaryReconciler.ReferenceMap documents the key format:
"Refenced object name is: kind-namespace-name or kind-name". -/
def getEntryKey (kind : ReferenceKind) (ns name : String) : String :=
  if ns = "" then kind.keyName ++ "-" ++ name
  else kind.keyName ++ "-" ++ ns ++ "-" ++ name

/-- A reference to a ConfigMap (corev1.ObjectReference restricted to the
fields getCurrentReferences reads: Namespace and Name). -/
structure PolicyRef where
  ns : String
  name : String
deriving DecidableEq

/-- A reference to a WorkloadRole (only the Name is read). -/
structure WorkloadRoleRef where
  name : String
deriving DecidableEq

/-- Kyverno feature configuration: the list of referenced ConfigMaps
holding kyverno policies. -/
structure KyvernoConfiguration where
  policyRefs : List PolicyRef
deriving DecidableEq

/-- Prometheus feature configuration: the list of referenced ConfigMaps
holding prometheus policies (storage settings are not read by the embedded
operations). -/
structure PrometheusConfiguration where
  policyRefs : List PolicyRef
deriving DecidableEq

/-- The declarative feature bundle of a ClusterSummary
(Spec.ClusterFeatureSpec): role references plus two optional feature
configurations. -/
structure ClusterFeatureSpec where
  workloadRoleRefs : List WorkloadRoleRef
  kyvernoConfiguration : Option KyvernoConfiguration
  prometheusConfiguration : Option PrometheusConfiguration
deriving DecidableEq

/-- The reference-index state of ClusterSummaryReconciler: ReferenceMap
(entry key to the set of consuming ClusterSummaries) and ClusterSummaryMap
(ClusterSummary name to the set of entry keys it references).  A key absent
from the Go map is `none`. -/
structure ClusterSummaryReconciler where
  ReferenceMap : String → Option Set
  ClusterSummaryMap : String → Option Set

/-- The data of an optional set, treating an absent map key as empty. -/
def setData : Option Set → Finset String
  | some s => s.data
  | none => ∅

/-- getCurrentReferences (clustersummary_controller.go lines 427-448):
collects the entry keys of every WorkloadRole reference and of every kyverno
and prometheus ConfigMap policy reference of the given spec. -/
def getCurrentReferences (spec : ClusterFeatureSpec) : Set :=
  let s1 := spec.workloadRoleRefs.foldl
    (fun s r => s.insert (getEntryKey .WorkloadRole "" r.name)) ⟨∅⟩
  let s2 := match spec.kyvernoConfiguration with
    | none => s1
    | some k => k.policyRefs.foldl
        (fun s r => s.insert (getEntryKey .ConfigMap r.ns r.name)) s1
  match spec.prometheusConfiguration with
  | none => s2
  | some p => p.policyRefs.foldl
      (fun s r => s.insert (getEntryKey .ConfigMap r.ns r.name)) s2

/-- getReferenceMapForEntry (lines 450-457): the consumer set stored in
ReferenceMap for an entry, a fresh empty set when the entry is absent (the
Go code also stores the fresh set back; the functional embedding of
updatesMaps stores the updated set, which subsumes that write). -/
def getReferenceMapForEntry (m : String → Option Set) (entry : String) : Set :=
  match m entry with
  | some s => s
  | none => ⟨∅⟩

/-- The local variable toBeRemoved of updatesMaps (lines 407-410): the
entries the consumer no longer references, i.e. the stored reference set
minus the current one (empty when the consumer was never indexed). -/
def toBeRemoved (r : ClusterSummaryReconciler) (name : String)
    (spec : ClusterFeatureSpec) : Finset String :=
  match r.ClusterSummaryMap name with
  | some v => v.difference (getCurrentReferences spec)
  | none => ∅

/-- updatesMaps (lines 400-425): inserts the consumer into ReferenceMap[e]
for every currently referenced entry e, erases it from ReferenceMap[e] for
every entry in toBeRemoved, and replaces ClusterSummaryMap[name] with the
current reference set.  The two range loops touch each entry key exactly
once and currentReferences is disjoint from toBeRemoved, so they are
rendered as a pointwise update. -/
def updatesMaps (r : ClusterSummaryReconciler) (name : String)
    (spec : ClusterFeatureSpec) : ClusterSummaryReconciler where
  ReferenceMap := fun entry =>
    if entry ∈ (getCurrentReferences spec).data then
      some ((getReferenceMapForEntry r.ReferenceMap entry).insert name)
    else if entry ∈ toBeRemoved r name spec then
      some ((getReferenceMapForEntry r.ReferenceMap entry).erase name)
    else r.ReferenceMap entry
  ClusterSummaryMap := fun c =>
    if c = name then some (getCurrentReferences spec) else r.ClusterSummaryMap c

/-- The reference set of a consumer per ClusterSummaryMap (spec name:
consumes), empty when the consumer is not indexed. -/
def consumes (r : ClusterSummaryReconciler) (c : String) : Finset String :=
  setData (r.ClusterSummaryMap c)

/-- The consumer set of an entry per ReferenceMap (spec name: referencedBy),
empty when the entry is not indexed. -/
def referencedBy (r : ClusterSummaryReconciler) (e : String) : Finset String :=
  setData (r.ReferenceMap e)

/-- The bidirectional index invariant of spec section 3: an entry is in a
consumer's reference set iff the consumer is in the entry's consumer set. -/
def MapsInvariant (r : ClusterSummaryReconciler) : Prop :=
  ∀ c e, e ∈ consumes r c ↔ c ∈ referencedBy r e

/-- The reconciler's initial index state: both maps empty. -/
def initialMaps : ClusterSummaryReconciler :=
  ⟨fun _ => none, fun _ => none⟩

/-- A sequence of updatesMaps calls applied in order. -/
def applyUpdates (r : ClusterSummaryReconciler)
    (calls : List (String × ClusterFeatureSpec)) : ClusterSummaryReconciler :=
  calls.foldl (fun acc call => updatesMaps acc call.1 call.2) r

theorem updatesMaps_ReferenceMap_apply (r : ClusterSummaryReconciler)
    (name : String) (spec : ClusterFeatureSpec) (e : String) :
    (updatesMaps r name spec).ReferenceMap e =
      if e ∈ (getCurrentReferences spec).data then
        some ((getReferenceMapForEntry r.ReferenceMap e).insert name)
      else if e ∈ toBeRemoved r name spec then
        some ((getReferenceMapForEntry r.ReferenceMap e).erase name)
      else r.ReferenceMap e := rfl

theorem updatesMaps_ClusterSummaryMap_apply (r : ClusterSummaryReconciler)
    (name : String) (spec : ClusterFeatureSpec) (c : String) :
    (updatesMaps r name spec).ClusterSummaryMap c =
      if c = name then some (getCurrentReferences spec)
      else r.ClusterSummaryMap c := rfl

theorem setData_getReferenceMapForEntry (m : String → Option Set) (e : String) :
    (getReferenceMapForEntry m e).data = setData (m e) := by
  unfold getReferenceMapForEntry setData
  cases m e <;> rfl

theorem referencedBy_updatesMaps (r : ClusterSummaryReconciler)
    (name : String) (spec : ClusterFeatureSpec) (e : String) :
    referencedBy (updatesMaps r name spec) e =
      if e ∈ (getCurrentReferences spec).data then
        Insert.insert name (referencedBy r e)
      else if e ∈ toBeRemoved r name spec then
        (referencedBy r e).erase name
      else referencedBy r e := by
  unfold referencedBy
  rw [updatesMaps_ReferenceMap_apply]
  by_cases h1 : e ∈ (getCurrentReferences spec).data
  · rw [if_pos h1, if_pos h1]
    simp [setData, Set.insert, setData_getReferenceMapForEntry]
  · rw [if_neg h1, if_neg h1]
    by_cases h2 : e ∈ toBeRemoved r name spec
    · rw [if_pos h2, if_pos h2]
      simp [setData, Set.erase, setData_getReferenceMapForEntry]
    · rw [if_neg h2, if_neg h2]

theorem consumes_updatesMaps (r : ClusterSummaryReconciler)
    (name : String) (spec : ClusterFeatureSpec) (c : String) :
    consumes (updatesMaps r name spec) c =
      if c = name then (getCurrentReferences spec).data else consumes r c := by
  unfold consumes
  rw [updatesMaps_ClusterSummaryMap_apply]
  by_cases h : c = name
  · rw [if_pos h, if_pos h]
    rfl
  · rw [if_neg h, if_neg h]

theorem toBeRemoved_eq_sdiff (r : ClusterSummaryReconciler)
    (name : String) (spec : ClusterFeatureSpec) :
    toBeRemoved r name spec = consumes r name \ (getCurrentReferences spec).data := by
  unfold toBeRemoved consumes Set.difference
  cases h : r.ClusterSummaryMap name <;> simp [setData]

/-- One updatesMaps call preserves the bidirectional index invariant. -/
theorem MapsInvariant_updatesMaps (r : ClusterSummaryReconciler)
    (name : String) (spec : ClusterFeatureSpec)
    (h : MapsInvariant r) : MapsInvariant (updatesMaps r name spec) := by
  intro c e
  rw [consumes_updatesMaps, referencedBy_updatesMaps, toBeRemoved_eq_sdiff]
  by_cases hc : c = name
  · subst hc
    simp only [if_pos rfl]
    by_cases he : e ∈ (getCurrentReferences spec).data
    · simp [he]
    · simp only [if_neg he]
      by_cases htbr : e ∈ consumes r c \ (getCurrentReferences spec).data
      · simp [htbr, he, Finset.not_mem_erase]
      · have hnc : e ∉ consumes r c := by
          intro hmem
          exact htbr (Finset.mem_sdiff.mpr ⟨hmem, he⟩)
        simp only [if_neg htbr]
        constructor
        · intro hmem; exact absurd hmem he
        · intro hmem
          exact absurd ((h c e).mpr hmem) hnc
  · simp only [if_neg hc]
    split
    · rw [Finset.mem_insert]
      simp [hc, h c e]
    · split
      · rw [Finset.mem_erase]
        simp [hc, h c e]
      · exact h c e

/-- The invariant propagates through any sequence of updatesMaps calls. -/
theorem applyUpdates_invariant_aux :
    ∀ (calls : List (String × ClusterFeatureSpec)) (r : ClusterSummaryReconciler),
      MapsInvariant r → MapsInvariant (applyUpdates r calls)
  | [], _, h => h
  | _ :: rest, r, h =>
      applyUpdates_invariant_aux rest _ (MapsInvariant_updatesMaps r _ _ h)

/-- C1: for every sequence of updatesMaps calls starting from the
reconciler's empty index, the bidirectional invariant holds after the last
call (and hence, the sequence being arbitrary, after every call): an entry
is in ClusterSummaryMap[c] iff c is in ReferenceMap[entry]. -/
theorem updatesMaps_bidirectional_invariant
    (calls : List (String × ClusterFeatureSpec)) :
    MapsInvariant (applyUpdates initialMaps calls) := by
  apply applyUpdates_invariant_aux
  intro c e
  simp [consumes, referencedBy, initialMaps, setData]

/-- C10: updatesMaps is idempotent: a second call with the same consumer and
the same spec leaves both ReferenceMap and ClusterSummaryMap exactly as they
were after the first call. -/
theorem ClusterSummaryReconciler.ext (a b : ClusterSummaryReconciler)
    (h1 : a.ReferenceMap = b.ReferenceMap)
    (h2 : a.ClusterSummaryMap = b.ClusterSummaryMap) : a = b := by
  cases a
  cases b
  cases h1
  cases h2
  rfl

theorem updatesMaps_idem (r : ClusterSummaryReconciler) (name : String)
    (spec : ClusterFeatureSpec) :
    updatesMaps (updatesMaps r name spec) name spec = updatesMaps r name spec := by
  have hcs : (updatesMaps r name spec).ClusterSummaryMap name =
      some (getCurrentReferences spec) := by
    rw [updatesMaps_ClusterSummaryMap_apply, if_pos rfl]
  have htbr : toBeRemoved (updatesMaps r name spec) name spec = ∅ := by
    unfold toBeRemoved
    rw [hcs]
    simp [Set.difference]
  apply ClusterSummaryReconciler.ext
  · funext entry
    rw [updatesMaps_ReferenceMap_apply]
    by_cases hc : entry ∈ (getCurrentReferences spec).data
    · rw [if_pos hc]
      have hval : (updatesMaps r name spec).ReferenceMap entry =
          some ((getReferenceMapForEntry r.ReferenceMap entry).insert name) := by
        rw [updatesMaps_ReferenceMap_apply, if_pos hc]
      have hget : getReferenceMapForEntry
            (updatesMaps r name spec).ReferenceMap entry =
          (getReferenceMapForEntry r.ReferenceMap entry).insert name := by
        unfold getReferenceMapForEntry
        rw [hval]
        rfl
      rw [hget, hval]
      simp [Set.insert]
    · rw [if_neg hc, htbr]
      simp
  · funext c
    rw [updatesMaps_ClusterSummaryMap_apply]
    by_cases hc : c = name
    · rw [if_pos hc, hc, hcs]
    · rw [if_neg hc]

/-- C4: if a consumer previously referenced exactly the entries for A and B
(and was the sole consumer of A) and its spec now references only B, then
after one updatesMaps call the consumer's stored reference set is exactly
the entry for B, the consumer is no longer in ReferenceMap[A], and the A
entry itself stays in ReferenceMap as an empty set rather than being
deleted. -/
theorem updatesMaps_dropped_reference (r : ClusterSummaryReconciler)
    (c aName bName kA kB : String)
    (_hkA : kA = getEntryKey .WorkloadRole "" aName)
    (hkB : kB = getEntryKey .WorkloadRole "" bName)
    (hne : kA ≠ kB)
    (hcs : r.ClusterSummaryMap c = some ⟨{kA, kB}⟩)
    (href : r.ReferenceMap kA = some ⟨{c}⟩) :
    (updatesMaps r c ⟨[⟨bName⟩], none, none⟩).ClusterSummaryMap c = some ⟨{kB}⟩
    ∧ c ∉ setData ((updatesMaps r c ⟨[⟨bName⟩], none, none⟩).ReferenceMap kA)
    ∧ (updatesMaps r c ⟨[⟨bName⟩], none, none⟩).ReferenceMap kA =
        some ⟨(∅ : Finset String)⟩ := by
  have hcur : getCurrentReferences ⟨[⟨bName⟩], none, none⟩ = ⟨{kB}⟩ := by
    rw [hkB]
    show Set.mk (Insert.insert (getEntryKey .WorkloadRole "" bName) ∅) = _
    rw [insert_emptyc_eq]
  have htbr : toBeRemoved r c ⟨[⟨bName⟩], none, none⟩ = {kA} := by
    unfold toBeRemoved
    rw [hcs]
    show Set.difference ⟨{kA, kB}⟩ (getCurrentReferences ⟨[⟨bName⟩], none, none⟩) = {kA}
    rw [hcur]
    unfold Set.difference
    show ({kA, kB} : Finset String) \ {kB} = {kA}
    rw [Finset.insert_sdiff_of_not_mem _ (by simpa using hne), Finset.sdiff_self,
      insert_emptyc_eq]
  have hrefEntry : (updatesMaps r c ⟨[⟨bName⟩], none, none⟩).ReferenceMap kA =
      some ⟨(∅ : Finset String)⟩ := by
    rw [updatesMaps_ReferenceMap_apply, hcur, htbr]
    rw [if_neg (by simpa using hne), if_pos (Finset.mem_singleton_self kA)]
    unfold getReferenceMapForEntry
    rw [href]
    simp [Set.erase, Finset.erase_singleton]
  refine ⟨?_, ?_, hrefEntry⟩
  · rw [updatesMaps_ClusterSummaryMap_apply, if_pos rfl, hcur]
  · rw [hrefEntry]
    simp [setData]

/-- Witness for the C4 scenario: starting from the empty index, a first
updatesMaps call referencing A and B followed by one referencing only B
leaves the consumer mapped to the B entry alone and the A entry present as
an empty set no longer containing the consumer. -/
theorem updatesMaps_dropped_reference_witness :
    (updatesMaps (updatesMaps initialMaps "cs1" ⟨[⟨"a"⟩, ⟨"b"⟩], none, none⟩)
        "cs1" ⟨[⟨"b"⟩], none, none⟩).ClusterSummaryMap "cs1" =
      some ⟨{getEntryKey .WorkloadRole "" "b"}⟩
    ∧ "cs1" ∉ setData ((updatesMaps
        (updatesMaps initialMaps "cs1" ⟨[⟨"a"⟩, ⟨"b"⟩], none, none⟩)
        "cs1" ⟨[⟨"b"⟩], none, none⟩).ReferenceMap (getEntryKey .WorkloadRole "" "a"))
    ∧ (updatesMaps (updatesMaps initialMaps "cs1" ⟨[⟨"a"⟩, ⟨"b"⟩], none, none⟩)
        "cs1" ⟨[⟨"b"⟩], none, none⟩).ReferenceMap (getEntryKey .WorkloadRole "" "a") =
        some ⟨(∅ : Finset String)⟩ := by
  have hcs : (updatesMaps initialMaps "cs1"
      ⟨[⟨"a"⟩, ⟨"b"⟩], none, none⟩).ClusterSummaryMap "cs1" =
      some ⟨{getEntryKey .WorkloadRole "" "a", getEntryKey .WorkloadRole "" "b"}⟩ := by
    rw [updatesMaps_ClusterSummaryMap_apply, if_pos rfl]
    simp [getCurrentReferences, Set.insert, Finset.pair_comm]
  have href : (updatesMaps initialMaps "cs1"
      ⟨[⟨"a"⟩, ⟨"b"⟩], none, none⟩).ReferenceMap (getEntryKey .WorkloadRole "" "a") =
      some ⟨{"cs1"}⟩ := by
    rw [updatesMaps_ReferenceMap_apply,
      if_pos (by simp [getCurrentReferences, Set.insert])]
    simp [getReferenceMapForEntry, initialMaps, Set.insert]
  exact updatesMaps_dropped_reference
    (updatesMaps initialMaps "cs1" ⟨[⟨"a"⟩, ⟨"b"⟩], none, none⟩)
    "cs1" "a" "b" (getEntryKey .WorkloadRole "" "a") (getEntryKey .WorkloadRole "" "b")
    rfl rfl (by decide) hcs href

/-- Feature identifiers (configv1alpha1.FeatureRole / FeatureKyverno /
FeaturePrometheus). -/
inductive FeatureID where
  | FeatureRole
  | FeatureKyverno
  | FeaturePrometheus
deriving DecidableEq

/-- deploy (clustersummary_controller.go lines 262-282): runs the roles,
kyverno and prometheus deploy steps in order, unconditionally, and only
afterwards returns the first recorded error (nil when none failed).  The
per-feature steps (deployRoles / deployKyverno / deployPrometheus, which
delegate to deployFeature whose implementation is outside the snapshot) are
abstracted as a state-transforming step function. -/
def deploy {σ : Type} (step : FeatureID → σ → σ × Option String)
    (s : σ) : σ × Option String :=
  let r1 := step .FeatureRole s
  let r2 := step .FeatureKyverno r1.1
  let r3 := step .FeaturePrometheus r2.1
  (r3.1,
    match r1.2 with
    | some e => some e
    | none =>
      match r2.2 with
      | some e => some e
      | none => r3.2)

/-- C2: in one normal pass the deploy operation attempts all three features
even when an earlier step failed (the final state threads through all three
step invocations unconditionally), and it returns a non-nil error iff at
least one feature's deploy step returned an error (equivalently: nil iff
all three steps returned nil). -/
theorem deploy_attempts_all_and_aggregates {σ : Type}
    (step : FeatureID → σ → σ × Option String) (s : σ) :
    (deploy step s).1 =
      (step .FeaturePrometheus (step .FeatureKyverno (step .FeatureRole s).1).1).1
    ∧ ((deploy step s).2 = none ↔
        (step .FeatureRole s).2 = none
        ∧ (step .FeatureKyverno (step .FeatureRole s).1).2 = none
        ∧ (step .FeaturePrometheus (step .FeatureKyverno (step .FeatureRole s).1).1).2 = none) := by
  refine ⟨rfl, ?_⟩
  simp only [deploy]
  cases hr : (step .FeatureRole s).2 <;>
    cases hk : (step .FeatureKyverno (step .FeatureRole s).1).2 <;>
      cases hp : (step .FeaturePrometheus (step .FeatureKyverno (step .FeatureRole s).1).1).2 <;>
        simp [hr, hk, hp]

/-- Outcome of fetching the target CAPI cluster in undeploy. -/
inductive ClusterGetResult where
  | found
  | notFound
  | err (e : String)
deriving DecidableEq

/-- undeploy (lines 327-360): returns success immediately when the target
cluster is NotFound; propagates any other fetch error; otherwise runs the
three per-feature undeploy steps in order and aggregates their errors
exactly like deploy. -/
def undeploy {σ : Type} (getCluster : ClusterGetResult)
    (step : FeatureID → σ → σ × Option String) (s : σ) : σ × Option String :=
  match getCluster with
  | .notFound => (s, none)
  | .err e => (s, some e)
  | .found =>
    let r1 := step .FeatureRole s
    let r2 := step .FeatureKyverno r1.1
    let r3 := step .FeaturePrometheus r2.1
    (r3.1,
      match r1.2 with
      | some e => some e
      | none =>
        match r2.2 with
        | some e => some e
        | none => r3.2)

/-- C7: when the target cluster fetch reports NotFound, undeploy returns
success and leaves the state untouched: no feature's undeploy step is
invoked. -/
theorem undeploy_cluster_not_found {σ : Type}
    (step : FeatureID → σ → σ × Option String) (s : σ) :
    undeploy .notFound step s = (s, none) := rfl

/-- Modelled from the spec: the finalizer marker constant
(configv1alpha1.ClusterSummaryFinalizer, declared in the api package, which
is outside the snapshot; its exact text is irrelevant to the claims). -/
def ClusterSummaryFinalizer : String := "clustersummaryfinalizer.projectsveltos.io"

/-- controllerutil.ContainsFinalizer: whether the object carries the
finalizer. -/
def containsFinalizer (finalizers : List String) (f : String) : Bool :=
  decide (f ∈ finalizers)

/-- controllerutil.RemoveFinalizer: removes every occurrence of the
finalizer and reports whether the list changed. -/
def removeFinalizer (finalizers : List String) (f : String) :
    List String × Bool :=
  let pruned := finalizers.filter (fun x => x ≠ f)
  (pruned, decide (pruned.length ≠ finalizers.length))

/-- ctrl.Result: requeue flag and requeue delay (seconds). -/
structure ReconcileResult where
  Requeue : Bool
  RequeueAfter : Nat
deriving DecidableEq

/-- deleteRequeueAfter (lines 49-52): 20 seconds. -/
def deleteRequeueAfter : Nat := 20

/-- reconcileDelete (lines 166-190): when undeploy fails, requeue after
deleteRequeueAfter with a nil error and leave the finalizers untouched;
when undeploy succeeds, remove the finalizer (if present) and return an
empty result with nil error.  The undeploy outcome is passed in as the
already-computed error of the undeploy call; the returned triple is the
finalizer list of the ClusterSummary, the ctrl.Result and the error. -/
def reconcileDelete (undeployErr : Option String) (finalizers : List String) :
    List String × ReconcileResult × Option String :=
  match undeployErr with
  | some _ => (finalizers, ⟨true, deleteRequeueAfter⟩, none)
  | none =>
    if containsFinalizer finalizers ClusterSummaryFinalizer then
      let res := removeFinalizer finalizers ClusterSummaryFinalizer
      if res.2 then (res.1, ⟨false, 0⟩, none)
      else (res.1, ⟨false, 0⟩, some "failed to remove finalizer")
    else (finalizers, ⟨false, 0⟩, none)

theorem removeFinalizer_not_mem (l : List String) (f : String) :
    f ∉ (removeFinalizer l f).1 := by
  simp [removeFinalizer]

theorem length_filter_ne_lt (l : List String) (f : String) (h : f ∈ l) :
    (l.filter (fun x => x ≠ f)).length < l.length := by
  induction l with
  | nil => cases h
  | cons a as ih =>
    rw [List.filter_cons]
    split
    · next hpa =>
      have haf : a ≠ f := by simpa using hpa
      have hmem : f ∈ as := by
        rcases List.mem_cons.mp h with h1 | h1
        · exact absurd h1.symm haf
        · exact h1
      simpa using Nat.succ_lt_succ (ih hmem)
    · next =>
      calc (as.filter (fun x => x ≠ f)).length
          ≤ as.length := List.length_filter_le _ _
        _ < (a :: as).length := by simp

theorem removeFinalizer_updated (l : List String) (f : String) (h : f ∈ l) :
    (removeFinalizer l f).2 = true := by
  have hlt := length_filter_ne_lt l f h
  simp only [removeFinalizer, decide_eq_true_eq]
  omega

/-- C3: when deletion is requested, an undeploy failure yields a nil error
together with a requeue after deleteRequeueAfter = 20 seconds and the
finalizers untouched; an undeploy success removes the finalizer and
returns an empty result with nil error and no requeue. -/
theorem reconcileDelete_spec (finalizers : List String) (e : String) :
    reconcileDelete (some e) finalizers =
      (finalizers, ⟨true, deleteRequeueAfter⟩, none)
    ∧ deleteRequeueAfter = 20
    ∧ ClusterSummaryFinalizer ∉ (reconcileDelete none finalizers).1
    ∧ (reconcileDelete none finalizers).2 = (⟨false, 0⟩, none) := by
  refine ⟨rfl, rfl, ?_, ?_⟩
  · unfold reconcileDelete
    by_cases h : containsFinalizer finalizers ClusterSummaryFinalizer = true
    · rw [if_pos h,
        if_pos (removeFinalizer_updated finalizers ClusterSummaryFinalizer
          (of_decide_eq_true h))]
      exact removeFinalizer_not_mem finalizers ClusterSummaryFinalizer
    · rw [if_neg h]
      intro hmem
      exact h (decide_eq_true hmem)
  · unfold reconcileDelete
    by_cases h : containsFinalizer finalizers ClusterSummaryFinalizer = true
    · rw [if_pos h,
        if_pos (removeFinalizer_updated finalizers ClusterSummaryFinalizer
          (of_decide_eq_true h))]
    · rw [if_neg h]

/-- deployRoles (lines 284-293), instrumented: it builds the roles feature
descriptor and invokes deployFeature unconditionally.  deployFeature's
implementation is outside the snapshot, so it is abstracted as its returned
error; the Bool of the result records whether it was invoked. -/
def deployRoles (deployFeature : Option String) (_spec : ClusterFeatureSpec) :
    Bool × Option String :=
  (true, deployFeature)

/-- deployKyverno (lines 295-309), instrumented like deployRoles: when the
spec declares no kyverno configuration it returns nil without invoking
deployFeature; otherwise it invokes deployFeature. -/
def deployKyverno (deployFeature : Option String) (spec : ClusterFeatureSpec) :
    Bool × Option String :=
  match spec.kyvernoConfiguration with
  | none => (false, none)
  | some _ => (true, deployFeature)

/-- deployPrometheus (lines 311-325), instrumented like deployRoles: when
the spec declares no prometheus configuration it returns nil without
invoking deployFeature; otherwise it invokes deployFeature. -/
def deployPrometheus (deployFeature : Option String) (spec : ClusterFeatureSpec) :
    Bool × Option String :=
  match spec.prometheusConfiguration with
  | none => (false, none)
  | some _ => (true, deployFeature)

/-- A feature's configuration is not declared in the spec: no WorkloadRole
references for roles, a nil configuration for kyverno and prometheus. -/
def notConfigured (f : FeatureID) (spec : ClusterFeatureSpec) : Prop :=
  match f with
  | .FeatureRole => spec.workloadRoleRefs = []
  | .FeatureKyverno => spec.kyvernoConfiguration = none
  | .FeaturePrometheus => spec.prometheusConfiguration = none

/-- The per-feature deploy dispatch of the normal reconciliation pass. -/
def deployStep (f : FeatureID) (deployFeature : Option String)
    (spec : ClusterFeatureSpec) : Bool × Option String :=
  match f with
  | .FeatureRole => deployRoles deployFeature spec
  | .FeatureKyverno => deployKyverno deployFeature spec
  | .FeaturePrometheus => deployPrometheus deployFeature spec

/-- Counterexample to C5: for the roles feature no "not configured"
condition is evaluated: with an empty WorkloadRole reference list,
deployRoles still invokes deployFeature and reports its error instead of
unconditional success, so the claimed guard does not hold for each of the
three features. -/
theorem deployRoles_no_guard_counterexample :
    ¬ (∀ (f : FeatureID) (spec : ClusterFeatureSpec) (d : Option String),
        notConfigured f spec → deployStep f d spec = (false, none)) := by
  intro h
  have hcontra := h .FeatureRole ⟨[], none, none⟩ (some "boom") rfl
  simp [deployStep, deployRoles] at hcontra

/-- C5 (amended): the orchestrator evaluates the "not configured" condition
before invoking deployFeature for the kyverno and prometheus features,
returning success without invocation when the configuration is nil; for the
roles feature no such condition is evaluated and deployFeature is always
invoked. -/
theorem deploy_not_configured_guard (spec : ClusterFeatureSpec)
    (d : Option String) :
    (spec.kyvernoConfiguration = none → deployKyverno d spec = (false, none))
    ∧ (spec.prometheusConfiguration = none → deployPrometheus d spec = (false, none))
    ∧ deployRoles d spec = (true, d) := by
  refine ⟨?_, ?_, rfl⟩
  · intro h
    simp [deployKyverno, h]
  · intro h
    simp [deployPrometheus, h]

/-- Witness for the amended C5 at a concrete unconfigured spec. -/
theorem deploy_not_configured_guard_witness :
    deployKyverno (some "boom") ⟨[], none, none⟩ = (false, none)
    ∧ deployPrometheus (some "boom") ⟨[], none, none⟩ = (false, none)
    ∧ deployRoles (some "boom") ⟨[], none, none⟩ = (true, some "boom") :=
  ⟨(deploy_not_configured_guard ⟨[], none, none⟩ (some "boom")).1 rfl,
   (deploy_not_configured_guard ⟨[], none, none⟩ (some "boom")).2.1 rfl,
   (deploy_not_configured_guard ⟨[], none, none⟩ (some "boom")).2.2⟩

/-- Result of fetching a referenced ConfigMap from the management
cluster. -/
inductive GetResult where
  | found (data : List (String × String))
  | notFound
  | otherErr (e : String)
deriving DecidableEq

/-- render.AsCode applied to a ConfigMap's Data, modelled as a
deterministic serialization of the key/value pairs. -/
def renderAsCode (data : List (String × String)) : String :=
  toString data

/-- A sha256 digest, modelled by its preimage: the hash function is
injective in the model, and only which string is hashed matters to the
claims. -/
structure Digest where
  preimage : String
deriving DecidableEq

/-- Whether a fetch outcome is the NotFound error. -/
def isNotFoundErr : GetResult → Bool
  | .notFound => true
  | _ => false

/-- Whether a fetch outcome is a non-NotFound error. -/
def isOtherErr : GetResult → Bool
  | .otherErr _ => true
  | _ => false

/-- The for-loop of prometheusHash (lines 159-175 of the prometheus
controller file): accumulates the rendered Data of every found ConfigMap
into config, skips NotFound references, and returns the first other
error. -/
def prometheusHashLoop (get : PolicyRef → GetResult) :
    List PolicyRef → String → Except String String
  | [], config => .ok config
  | ref :: rest, config =>
    match get ref with
    | .found d => prometheusHashLoop get rest (config ++ renderAsCode d)
    | .notFound => prometheusHashLoop get rest config
    | .otherErr e => .error e

/-- prometheusHash (lines 148-179): the hash of the empty string when no
prometheus configuration is declared; otherwise the hash of the
concatenated rendered Data of the referenced ConfigMaps, where a NotFound
reference contributes nothing and any other fetch error is returned (the
Go function then returns a nil hash together with the error, rendered here
as the error branch of Except). -/
def prometheusHash (get : PolicyRef → GetResult) (spec : ClusterFeatureSpec) :
    Except String Digest :=
  match spec.prometheusConfiguration with
  | none => .ok ⟨""⟩
  | some cfg => (prometheusHashLoop get cfg.policyRefs "").map Digest.mk

theorem prometheusHashLoop_filter_notFound (get : PolicyRef → GetResult)
    (refs : List PolicyRef) :
    ∀ config, prometheusHashLoop get refs config =
      prometheusHashLoop get
        (refs.filter (fun x => !(isNotFoundErr (get x)))) config := by
  induction refs with
  | nil =>
    intro config
    rfl
  | cons ref rest ih =>
    intro config
    cases hg : get ref with
    | found d => simp [prometheusHashLoop, List.filter_cons, hg, isNotFoundErr, ih]
    | notFound => simp [prometheusHashLoop, List.filter_cons, hg, isNotFoundErr, ih]
    | otherErr e => simp [prometheusHashLoop, List.filter_cons, hg, isNotFoundErr]

theorem prometheusHashLoop_error (get : PolicyRef → GetResult)
    (ref : PolicyRef) (post : List PolicyRef) (e : String)
    (herr : get ref = .otherErr e) :
    ∀ pre : List PolicyRef, (∀ x ∈ pre, isOtherErr (get x) = false) →
      ∀ config, prometheusHashLoop get (pre ++ ref :: post) config = .error e := by
  intro pre
  induction pre with
  | nil =>
    intro _ config
    simp [prometheusHashLoop, herr]
  | cons x xs ih =>
    intro hpre config
    have hxs : ∀ y ∈ xs, isOtherErr (get y) = false := fun y hy =>
      hpre y (List.mem_cons_of_mem x hy)
    cases hg : get x with
    | found d => simpa [prometheusHashLoop, hg] using ih hxs _
    | notFound => simpa [prometheusHashLoop, hg] using ih hxs _
    | otherErr e2 =>
      have hx := hpre x (List.mem_cons_self x xs)
      rw [hg] at hx
      simp [isOtherErr] at hx

/-- C6: prometheusHash returns the hash of the empty input without error
when no prometheus configuration is declared; NotFound references
contribute nothing to the hash and cause no error (the result equals the
run over the reference list with the NotFound references dropped); and the
first non-NotFound fetch error is returned as the error outcome with no
hash. -/
theorem prometheusHash_spec (get : PolicyRef → GetResult)
    (spec : ClusterFeatureSpec) (cfg : PrometheusConfiguration)
    (pre post : List PolicyRef) (ref : PolicyRef) (e : String) :
    (spec.prometheusConfiguration = none → prometheusHash get spec = .ok ⟨""⟩)
    ∧ (spec.prometheusConfiguration = some cfg →
        prometheusHash get spec =
          (prometheusHashLoop get
            (cfg.policyRefs.filter (fun x => !(isNotFoundErr (get x)))) "").map
            Digest.mk)
    ∧ (spec.prometheusConfiguration = some cfg →
        cfg.policyRefs = pre ++ ref :: post →
        (∀ x ∈ pre, isOtherErr (get x) = false) →
        get ref = .otherErr e →
        prometheusHash get spec = .error e) := by
  refine ⟨?_, ?_, ?_⟩
  · intro h
    simp [prometheusHash, h]
  · intro h
    simp only [prometheusHash, h]
    rw [← prometheusHashLoop_filter_notFound]
  · intro h hrefs hpre herr
    simp only [prometheusHash, h, hrefs]
    rw [prometheusHashLoop_error get ref post e herr pre hpre]
    rfl

/-- A concrete fetch environment used by the hash witness: the ConfigMap
named "a" is missing, the one named "b" fails with a non-NotFound error,
anything else is found with one data entry. -/
def getW : PolicyRef → GetResult
  | ⟨_, "a"⟩ => .notFound
  | ⟨_, "b"⟩ => .otherErr "boom"
  | _ => .found [("k", "v")]

/-- Witness for C6: a spec with no prometheus configuration hashes the
empty input, and a configured spec whose first reference is missing and
whose second reference fails returns that error. -/
theorem prometheusHash_spec_witness :
    prometheusHash getW ⟨[], none, none⟩ = .ok ⟨""⟩
    ∧ prometheusHash getW ⟨[], none, some ⟨[⟨"ns", "a"⟩, ⟨"ns", "b"⟩]⟩⟩ =
        .error "boom" :=
  ⟨(prometheusHash_spec getW ⟨[], none, none⟩ ⟨[]⟩ [] [] ⟨"", ""⟩ "").1 rfl,
   (prometheusHash_spec getW ⟨[], none, some ⟨[⟨"ns", "a"⟩, ⟨"ns", "b"⟩]⟩⟩
      ⟨[⟨"ns", "a"⟩, ⟨"ns", "b"⟩]⟩ [⟨"ns", "a"⟩] [] ⟨"ns", "b"⟩ "boom").2.2
     rfl rfl (by decide) rfl⟩

/-- Lifecycle status of a feature (configv1alpha1.FeatureStatus values). -/
inductive FeatureStatus where
  | FeatureStatusProvisioning
  | FeatureStatusProvisioned
  | FeatureStatusFailed
deriving DecidableEq

/-- One entry of status.featureSummaries (configv1alpha1.FeatureSummary);
the hash is an opaque byte string. -/
structure FeatureSummary where
  featureID : FeatureID
  status : FeatureStatus
  hash : List Nat
  failureMessage : Option String
  failureReason : Option String
deriving DecidableEq

/-- Modelled from the spec: ClusterSummaryScope.SetFeatureStatus, whose
implementation is outside the snapshot (only its tests are present).  Spec
section 4.4: the mutator finds the feature summary entry by featureID
(first match wins) and overwrites its status and hash in place; when no
entry matches, a new one is appended. -/
def SetFeatureStatus (featureSummaries : List FeatureSummary)
    (featureID : FeatureID) (status : FeatureStatus) (hash : List Nat) :
    List FeatureSummary :=
  match featureSummaries with
  | [] => [⟨featureID, status, hash, none, none⟩]
  | fs :: rest =>
    if fs.featureID = featureID then
      { fs with status := status, hash := hash } :: rest
    else fs :: SetFeatureStatus rest featureID status hash

/-- C8: SetFeatureStatus(F, Provisioning, hash1) followed by
SetFeatureStatus(F, Provisioned, hash2) on an empty status list yields
exactly one summary entry for F, with status Provisioned and hash hash2:
the second call overwrites in place rather than appending, keeping at most
one entry per feature identifier. -/
theorem SetFeatureStatus_overwrites (f : FeatureID) (hash1 hash2 : List Nat) :
    SetFeatureStatus (SetFeatureStatus [] f .FeatureStatusProvisioning hash1)
        f .FeatureStatusProvisioned hash2 =
      [⟨f, .FeatureStatusProvisioned, hash2, none, none⟩] := by
  simp [SetFeatureStatus]

/-- generatePolicyNamePrefix (lines 392-398): when Status.PolicyPrefix is
empty it is set to the fixed tag "cs" followed by util.RandomString(10);
otherwise it is left unchanged.  The random-string utility is an external
collaborator, abstracted as a function of the requested length; argument
and result are the Status.PolicyPrefix value. -/
def generatePolicyNamePrefix (randomString : Nat → String) (p : String) : String :=
  if p = "" then "cs" ++ randomString 10 else p

/-- C9: the policy-name prefix is generated at most once per control
resource: an empty stored value becomes the fixed tag "cs" followed by the
requested 10-character random string; a non-empty stored value is left
unchanged by every call; in particular a second call after the first
changes nothing. -/
theorem generatePolicyNamePrefix_once (randomString : Nat → String) (p : String) :
    (p = "" → generatePolicyNamePrefix randomString p = "cs" ++ randomString 10)
    ∧ (p ≠ "" → generatePolicyNamePrefix randomString p = p)
    ∧ generatePolicyNamePrefix randomString
        ( generatePolicyNamePrefix randomString p) =
      generatePolicyNamePrefix randomString p := by
  have hcs : ∀ s : String, ¬("cs" ++ s) = "" := by
    intro s h
    have hlen := congrArg String.length h
    rw [String.length_append] at hlen
    have h2 : ("cs" : String).length = 2 := rfl
    have h0 : ("" : String).length = 0 := rfl
    omega
  refine ⟨?_, ?_, ?_⟩
  · intro h
    simp only [ generatePolicyNamePrefix, if_pos h]
  · intro h
    simp only [ generatePolicyNamePrefix, if_neg h]
  · by_cases h : p = ""
    · simp only [ generatePolicyNamePrefix, if_pos h]
      rw [if_neg (hcs (randomString 10))]
    · simp only [ generatePolicyNamePrefix, if_neg h]

/-- Witness for C9 at a concrete random-string function and concrete
stored values. -/
theorem generatePolicyNamePrefix_once_witness :
    generatePolicyNamePrefix (fun _ => "0123456789") "" = "cs" ++ "0123456789"
    ∧ generatePolicyNamePrefix (fun _ => "0123456789") "csabcde00011" =
        "csabcde00011" :=
  ⟨( generatePolicyNamePrefix_once (fun _ => "0123456789") "").1 rfl,
   ( generatePolicyNamePrefix_once (fun _ => "0123456789") "csabcde00011").2.1
     (by decide)⟩

end Controllers
